import Mathlib

/-!
Verification of the CyLog persistent queue-processing log (`src/cyylog/CyLog.py`).

The development shallowly embeds the `CyyLog` class:

* structured items (the JSON-like values the program manipulates) as the
  inductive type `JVal`;
* the content-id computation `_get_item_id` (MD5 of
  `json.dumps(item, sort_keys=True, default=str)`) as `getItemId`, with a
  full executable MD5 and an executable model of the canonical serializer;
* the result store `output_data : Dict[str, List[Dict]]` as an ordered
  association list `Store` of categories to entry lists, with the operations
  `endpoint`, `check`, `done` translated statement by statement;
* `_load_output_data` over an abstract backing-file state `FileState`
  (absent / malformed / parsed document), and the `generator` item stream
  together with the `__main__` driving loop (`processLoop`).

Logging calls are presentation only and are not modelled, except that the
generator's and loader's observable outcomes (error reported, summary
emitted) are recorded as booleans where a claim mentions them.  Mutation of
Python dicts and lists is rendered as explicit state passing; raising a
`KeyError` is rendered as an `Option` result.
-/

namespace CyLog

/-- Structured values, the duck-typed items the program manipulates: JSON
primitives, ordered lists, string-keyed mappings, plus `other s` for a
non-JSON-serializable scalar whose Python `str()` is `s` (serialized via the
`default=str` fallback of `json.dumps`).  Numbers are modelled as integers. -/
inductive JVal where
  | null : JVal
  | bool : Bool → JVal
  | num : Int → JVal
  | str : String → JVal
  | other : String → JVal
  | arr : List JVal → JVal
  | obj : List (String × JVal) → JVal

/-! ### MD5 (the `hashlib.md5(...).hexdigest()` call of `_get_item_id`) -/

/-- Modulus for 32-bit words. -/
def M32 : Nat := 4294967296

/-- All-ones 32-bit mask, used for bitwise complement. -/
def mask32 : Nat := 4294967295

/-- Left-rotation of a 32-bit word. -/
def rotl32 (x s : Nat) : Nat := ((x <<< s) % M32) ||| (x >>> (32 - s))

/-- MD5 sine-derived round constants. -/
def kTable : List Nat :=
  [0xd76aa478, 0xe8c7b756, 0x242070db, 0xc1bdceee,
   0xf57c0faf, 0x4787c62a, 0xa8304613, 0xfd469501,
   0x698098d8, 0x8b44f7af, 0xffff5bb1, 0x895cd7be,
   0x6b901122, 0xfd987193, 0xa679438e, 0x49b40821,
   0xf61e2562, 0xc040b340, 0x265e5a51, 0xe9b6c7aa,
   0xd62f105d, 0x02441453, 0xd8a1e681, 0xe7d3fbc8,
   0x21e1cde6, 0xc33707d6, 0xf4d50d87, 0x455a14ed,
   0xa9e3e905, 0xfcefa3f8, 0x676f02d9, 0x8d2a4c8a,
   0xfffa3942, 0x8771f681, 0x6d9d6122, 0xfde5380c,
   0xa4beea44, 0x4bdecfa9, 0xf6bb4b60, 0xbebfbc70,
   0x289b7ec6, 0xeaa127fa, 0xd4ef3085, 0x04881d05,
   0xd9d4d039, 0xe6db99e5, 0x1fa27cf8, 0xc4ac5665,
   0xf4292244, 0x432aff97, 0xab9423a7, 0xfc93a039,
   0x655b59c3, 0x8f0ccc92, 0xffeff47d, 0x85845dd1,
   0x6fa87e4f, 0xfe2ce6e0, 0xa3014314, 0x4e0811a1,
   0xf7537e82, 0xbd3af235, 0x2ad7d2bb, 0xeb86d391]

/-- MD5 per-round left-rotation amounts. -/
def sTable : List Nat :=
  [7, 12, 17, 22, 7, 12, 17, 22, 7, 12, 17, 22, 7, 12, 17, 22,
   5, 9, 14, 20, 5, 9, 14, 20, 5, 9, 14, 20, 5, 9, 14, 20,
   4, 11, 16, 23, 4, 11, 16, 23, 4, 11, 16, 23, 4, 11, 16, 23,
   6, 10, 15, 21, 6, 10, 15, 21, 6, 10, 15, 21, 6, 10, 15, 21]

/-- Little-endian byte decomposition of `n` into `k` bytes. -/
def toLEBytes : Nat → Nat → List Nat
  | 0, _ => []
  | k + 1, n => (n % 256) :: toLEBytes k (n / 256)

/-- MD5 padding: append `0x80`, zero-pad to 56 mod 64, append the 64-bit
little-endian bit length. -/
def mdPad (msg : List Nat) : List Nat :=
  let len := msg.length
  msg ++ [0x80] ++ List.replicate ((119 - len % 64) % 64) 0 ++
    toLEBytes 8 ((len * 8) % (2 ^ 64))

/-- Group a byte list into 32-bit little-endian words. -/
def toWords : List Nat → List Nat
  | b0 :: b1 :: b2 :: b3 :: rest => (b0 + 256 * (b1 + 256 * (b2 + 256 * b3))) :: toWords rest
  | _ => []

/-- One MD5 round on state `(A, B, C, D)` with message words `M`. -/
def md5Round (M : List Nat) (st : Nat × Nat × Nat × Nat) (i : Nat) : Nat × Nat × Nat × Nat :=
  let (A, B, C, D) := st
  let fg : Nat × Nat :=
    if i < 16 then ((B &&& C) ||| ((mask32 ^^^ B) &&& D), i)
    else if i < 32 then ((D &&& B) ||| ((mask32 ^^^ D) &&& C), (5 * i + 1) % 16)
    else if i < 48 then (B ^^^ C ^^^ D, (3 * i + 5) % 16)
    else (C ^^^ (B ||| (mask32 ^^^ D)), (7 * i) % 16)
  let f := (fg.1 + A + kTable.getD i 0 + M.getD fg.2 0) % M32
  (D, (B + rotl32 f (sTable.getD i 0)) % M32, B, C)

/-- Process one 64-byte chunk, already split into words. -/
def md5Chunk (st : Nat × Nat × Nat × Nat) (M : List Nat) : Nat × Nat × Nat × Nat :=
  let r := (List.range 64).foldl (md5Round M) st
  (((st.1 + r.1) % M32), ((st.2.1 + r.2.1) % M32), ((st.2.2.1 + r.2.2.1) % M32),
   ((st.2.2.2 + r.2.2.2) % M32))

/-- MD5 of a byte list, as the four 32-bit state words. -/
def md5Core (msg : List Nat) : Nat × Nat × Nat × Nat :=
  let padded := mdPad msg
  (List.range (padded.length / 64)).foldl
    (fun st i => md5Chunk st (toWords ((padded.drop (64 * i)).take 64)))
    (0x67452301, 0xefcdab89, 0x98badcfe, 0x10325476)

/-- Lowercase hexadecimal digit. -/
def hexDigitChar (n : Nat) : Char :=
  if n < 10 then Char.ofNat (48 + n) else Char.ofNat (87 + n)

/-- Two lowercase hex characters of a byte. -/
def byteHexChars (b : Nat) : List Char := [hexDigitChar (b / 16), hexDigitChar (b % 16)]

/-- Hex rendering of one 32-bit word, little-endian byte order as in an MD5
digest. -/
def wordHex (w : Nat) : String :=
  String.mk ((toLEBytes 4 w).flatMap byteHexChars)

/-- MD5 hex digest of a byte list (`hashlib.md5(bytes).hexdigest()`). -/
def md5Hex (msg : List Nat) : String :=
  let r := md5Core msg
  wordHex r.1 ++ wordHex r.2.1 ++ wordHex r.2.2.1 ++ wordHex r.2.2.2

/-- UTF-8 bytes of a string.  The canonical serializer below escapes every
character outside printable ASCII, so on its outputs the UTF-8 encoding used
by `item_str.encode('utf-8')` coincides with the code points. -/
def strBytes (s : String) : List Nat := s.data.map (fun c => c.toNat)

/-! ### Canonical serializer (`json.dumps(item, sort_keys=True, default=str)`) -/

/-- Four lowercase hex digits, as in a `\uXXXX` escape. -/
def hex4 (n : Nat) : List Char :=
  [hexDigitChar (n / 4096 % 16), hexDigitChar (n / 256 % 16),
   hexDigitChar (n / 16 % 16), hexDigitChar (n % 16)]

/-- JSON escaping of one character with `ensure_ascii` semantics: the named
escapes, `\u00xx` for other control characters, `\uXXXX` (with surrogate
pairs beyond the BMP) for every non-ASCII character, and printable ASCII
unchanged. -/
def escChar (c : Char) : List Char :=
  if c = '\\' then ['\\', '\\']
  else if c = '"' then ['\\', '"']
  else if c.toNat = 8 then ['\\', 'b']
  else if c.toNat = 9 then ['\\', 't']
  else if c.toNat = 10 then ['\\', 'n']
  else if c.toNat = 12 then ['\\', 'f']
  else if c.toNat = 13 then ['\\', 'r']
  else if c.toNat < 32 || c.toNat > 126 then
    if c.toNat ≤ 65535 then '\\' :: 'u' :: hex4 c.toNat
    else ('\\' :: 'u' :: hex4 (55296 + (c.toNat - 65536) / 1024)) ++
         ('\\' :: 'u' :: hex4 (56320 + (c.toNat - 65536) % 1024))
  else [c]

/-- JSON escaping of a character list. -/
def escChars : List Char → List Char
  | [] => []
  | c :: cs => escChar c ++ escChars cs

/-- JSON string literal for `s`, double quotes included. -/
def dumpString (s : String) : String :=
  String.mk ('"' :: (escChars s.data ++ ['"']))

/-- Key-sorting step of the serializer: insert one (key, rendered-value) pair
in front of the first pair with a key that is not smaller. -/
def sortPairs (l : List (String × String)) : List (String × String) :=
  l.insertionSort (fun a b => a.1 ≤ b.1)

/-- Render one already-serialized mapping entry as `"key": value`. -/
def renderPair (kv : String × String) : String :=
  dumpString kv.1 ++ ": " ++ kv.2

mutual

/-- Canonical serialization of a value, the model of
`json.dumps(item, sort_keys=True, default=str)` with its default separators
`", "` and `": "`.  Mappings are emitted with their entries in ascending key
order; `dumps_obj_sorted` below shows this definition agrees with the
source's order of operations (sort the entries, then serialize each value). -/
def dumps : JVal → String
  | .null => "null"
  | .bool true => "true"
  | .bool false => "false"
  | .num n => toString n
  | .str s => dumpString s
  | .other s => dumpString s
  | .arr xs => "[" ++ String.intercalate ", " (dumpsList xs) ++ "]"
  | .obj l => "\x7b" ++
      String.intercalate ", " ((sortPairs (dumpsEntries l)).map renderPair) ++ "\x7d"

/-- Serializations of the elements of a list value. -/
def dumpsList : List JVal → List String
  | [] => []
  | x :: xs => dumps x :: dumpsList xs

/-- Pairs of raw key and serialized value for the entries of a mapping. -/
def dumpsEntries : List (String × JVal) → List (String × String)
  | [] => []
  | (k, v) :: rest => (k, dumps v) :: dumpsEntries rest

end

/-- Content id of an item, the model of `CyyLog._get_item_id`:
`hashlib.md5(json.dumps(item, sort_keys=True, default=str).encode('utf-8')).hexdigest()`. -/
def getItemId (item : JVal) : String := md5Hex (strBytes (dumps item))

/-! ### The result store and its operations -/

/-- Python truthiness of a structured value, the `if not item:` tests of
`endpoint` and `done` and the `if not item:` test of `generator`.  A
non-serializable scalar object is truthy. -/
def truthy : JVal → Bool
  | .null => false
  | .bool b => b
  | .num n => n != 0
  | .str s => s != ""
  | .other _ => true
  | .arr xs => !xs.isEmpty
  | .obj l => !l.isEmpty

/-- One persisted record, the dictionary built by `_format_output_entry`:
timestamp, content id, the original item, and an optional message. -/
structure Entry where
  timestamp : String
  id : String
  item : JVal
  message : Option String

/-- The in-memory store `output_data`, a Python dict from category name to
list of entries, modelled as an insertion-ordered association list with
distinct keys. -/
abbrev Store : Type := List (String × List Entry)

/-- Dict lookup `output_data[key]` / the membership test `key in output_data`
(`some` on hit, `none` when the key is missing). -/
def lookupStore : Store → String → Option (List Entry)
  | [], _ => none
  | (k, es) :: rest, key => if k = key then some es else lookupStore rest key

/-- Dict update `output_data[key] = es` for a key already present. -/
def storeSet : Store → String → List Entry → Store
  | [], _, _ => []
  | (k, es) :: rest, key, newEs =>
    if k = key then (k, newEs) :: rest else (k, es) :: storeSet rest key newEs

/-- The body of `endpoint`'s per-key loop:
`if key not in output_data: output_data[key] = []` followed by
`output_data[key].append(entry)`.  A fresh dict key is appended at the end,
matching Python's insertion order. -/
def storeAppend (store : Store) (key : String) (e : Entry) : Store :=
  match lookupStore store key with
  | some es => storeSet store key (es ++ [e])
  | none => store ++ [(key, [e])]

/-- Model of `_format_output_entry`.  `datetime.now().isoformat()` is the
explicit parameter `now`; the `if message:` test drops a `None` or empty
message. -/
def formatOutputEntry (now : String) (item : JVal) (message : Option String) : Entry :=
  { timestamp := now
    id := getItemId item
    item := item
    message := match message with
      | some m => if m = "" then none else some m
      | none => none }

/-- Model of `CyyLog.endpoint`.  A falsy item is a warned no-op; otherwise one
entry is built and appended under every requested key, and the store is saved.
The returned boolean records whether `_save_output_data` ran.  The
`isinstance(keys, str)` coercion of a single name to a one-element list is
applied by the caller of this model. -/
def endpoint (store : Store) (item : JVal) (keys : List String)
    (message : Option String) (now : String) : Store × Bool :=
  if truthy item = false then (store, false)
  else
    let entry := formatOutputEntry now item message
    (keys.foldl (fun st key => storeAppend st key entry) store, true)

/-- Model of `CyyLog.check`: compute the item's id once, then scan the named
categories in order; a category missing from the store only produces a
warning (not modelled) and the scan continues.  `List.any` returns at the
first hit, like the source's early `return True`. -/
def check (store : Store) (item : JVal) (keys : List String) : Bool :=
  let itemId := getItemId item
  keys.any (fun key =>
    match lookupStore store key with
    | none => false
    | some es => es.any (fun e => e.id == itemId))

/-- Model of `CyyLog.done`.  A falsy item is a warned no-op that does not
save; otherwise the entry is appended to `output_data["dones"]` and the store
is saved.  `none` is the `KeyError` raised when the loaded store has no
`"dones"` key; the returned boolean records whether `_save_output_data` ran. -/
def done (store : Store) (item : JVal) (message : Option String) (now : String) :
    Option (Store × Bool) :=
  if truthy item = false then some (store, false)
  else match lookupStore store "dones" with
    | none => none
    | some es =>
      some (storeSet store "dones" (es ++ [formatOutputEntry now item message]), true)

/-! ### Persistence and the item stream -/

/-- Observable state of a file for this program: absent (`FileNotFoundError`
on open), present but not parseable (`json.JSONDecodeError`), or parseable to
a document.  The `json` text encoding of a document is abstracted: a file
holds the document it parses to. -/
inductive FileState where
  | absent : FileState
  | malformed : FileState
  | parsed : JVal → FileState

/-- Model of `_load_output_data`: return the parsed backing file, falling back
to the fresh document with a single empty `dones` category on a missing or
malformed file.  Note the fallback happens only on those two errors; a
parseable document is returned as-is, whatever its shape. -/
def loadOutputData : FileState → JVal
  | .absent => .obj [("dones", .arr [])]
  | .malformed => .obj [("dones", .arr [])]
  | .parsed v => v

/-- Membership of a key in a loaded document (`"dones" in output_data` on the
raw parse result); only a mapping has keys. -/
def hasKey (v : JVal) (k : String) : Bool :=
  match v with
  | .obj l => l.any (fun kv => kv.1 == k)
  | _ => false

/-- Result of one full `generator()` run: the yielded items in order, the
summary counters, whether the summary line was reached (it is emitted only on
natural exhaustion), and whether an error was reported. -/
structure GenResult where
  yielded : List JVal
  total : Nat
  processed : Nat
  skipped : Nat
  summaryEmitted : Bool
  errorLogged : Bool

/-- The per-item loop of `generator`: skip (count, do not yield) a falsy
element; skip an element whose id appears in the `dones` entries; otherwise
yield it.  Returns (yielded items, processed count, skipped count).  `dones`
is `output_data["dones"]`, constant while the caller does not mutate the
store mid-stream. -/
def genLoop (dones : List Entry) : List JVal → List JVal × Nat × Nat
  | [] => ([], 0, 0)
  | item :: rest =>
    let r := genLoop dones rest
    if truthy item = false then (r.1, r.2.1, r.2.2 + 1)
    else if dones.any (fun e => e.id == getItemId item) then (r.1, r.2.1, r.2.2 + 1)
    else (item :: r.1, r.2.1 + 1, r.2.2)

/-- Model of one `generator()` run over input file state `input`, with `dones`
the store's `"dones"` entry list.  A missing or unparseable input file and a
parse result that is not a list are reported as errors and yield nothing,
without raising to the caller; the summary is logged only when the item loop
runs to exhaustion. -/
def generator (input : FileState) (dones : List Entry) : GenResult :=
  match input with
  | .absent => ⟨[], 0, 0, 0, false, true⟩
  | .malformed => ⟨[], 0, 0, 0, false, true⟩
  | .parsed (.arr data) =>
    let r := genLoop dones data
    ⟨r.1, data.length, r.2.1, r.2.2, true, false⟩
  | .parsed _ => ⟨[], 0, 0, 0, false, true⟩

/-- Whether a parsed document is a list, the `isinstance(data, list)` test of
`generator`. -/
def isArrB : JVal → Bool
  | .arr _ => true
  | _ => false

/-- The `__main__` driving loop: iterate the generator and mark each yielded
item done immediately.  Because `generator` re-reads `output_data["dones"]`
at every element, entries appended mid-stream affect the skip decisions for
the remaining elements.  Returns the final store, the yielded items, and the
generator's processed/skipped counters; `none` is a propagated `KeyError`
when the store has no `"dones"` key. -/
def processLoop (now : String) : Store → List JVal → Option (Store × List JVal × Nat × Nat)
  | store, [] => some (store, [], 0, 0)
  | store, item :: rest =>
    if truthy item = false then
      (processLoop now store rest).map (fun r => (r.1, r.2.1, r.2.2.1, r.2.2.2 + 1))
    else match lookupStore store "dones" with
      | none => none
      | some dones =>
        if dones.any (fun e => e.id == getItemId item) then
          (processLoop now store rest).map (fun r => (r.1, r.2.1, r.2.2.1, r.2.2.2 + 1))
        else match done store item none now with
          | none => none
          | some sb =>
            (processLoop now sb.1 rest).map (fun r => (r.1, item :: r.2.1, r.2.2.1 + 1, r.2.2.2))

/-! ### Encoding of the store as a document (save / load round trip) -/

/-- The document `json.dump` writes for one entry: the dict literal of
`_format_output_entry`, with the `message` key present exactly when a message
was recorded. -/
def entryToJVal (e : Entry) : JVal :=
  .obj ([("timestamp", .str e.timestamp), ("id", .str e.id), ("item", e.item)] ++
    (match e.message with
     | some m => [("message", .str m)]
     | none => []))

/-- The document `_save_output_data` writes: each category in store order,
each entry list in order. -/
def storeToJVal (store : Store) : JVal :=
  .obj (store.map (fun kv => (kv.1, .arr (kv.2.map entryToJVal))))

/-- Model of `_save_output_data`: the backing file afterwards parses to the
document of the current store (the `json` text round trip is abstracted per
the store file interface). -/
def saveOutputData (store : Store) : FileState := .parsed (storeToJVal store)

/-- Read one entry back from a document. -/
def entryOfJVal : JVal → Option Entry
  | .obj [("timestamp", .str ts), ("id", .str i), ("item", it)] =>
    some ⟨ts, i, it, none⟩
  | .obj [("timestamp", .str ts), ("id", .str i), ("item", it), ("message", .str m)] =>
    some ⟨ts, i, it, some m⟩
  | _ => none

/-- Read a list of entries back from the documents of one category. -/
def entryListOfJVals : List JVal → Option (List Entry)
  | [] => some []
  | v :: vs =>
    match entryOfJVal v, entryListOfJVals vs with
    | some e, some es => some (e :: es)
    | _, _ => none

/-- Read the entry list of one category document, which must be a list. -/
def entriesOfCategory : JVal → Option (List Entry)
  | .arr vs => entryListOfJVals vs
  | _ => none

/-- Read the categories of a store document. -/
def storeEntriesOfJVals : List (String × JVal) → Option Store
  | [] => some []
  | kv :: rest =>
    match entriesOfCategory kv.2, storeEntriesOfJVals rest with
    | some es, some tail => some ((kv.1, es) :: tail)
    | _, _ => none

/-- Read a whole store back from a document: the logical structure (category
names in order, entries in order, ids, items, messages) of a saved store. -/
def storeOfJVal : JVal → Option Store
  | .obj l => storeEntriesOfJVals l
  | _ => none

/-! ### Key-order invariance of the canonical serializer -/

/-- Entry-level key sort, the `sorted(dct.items())` of the `json` encoder with
`sort_keys=True` (on a dict the comparison never reaches the values, since
keys are distinct). -/
def sortEntries (l : List (String × JVal)) : List (String × JVal) :=
  l.insertionSort (fun a b => a.1 ≤ b.1)

/-- Distinctness of a key list, decided executably. -/
def noDupKeys : List String → Bool
  | [] => true
  | k :: rest => !(rest.contains k) && noDupKeys rest

mutual

/-- Well-formedness of a value as a Python object: every mapping in it has
distinct keys at every nesting level. -/
def wfKeys : JVal → Bool
  | .null => true
  | .bool _ => true
  | .num _ => true
  | .str _ => true
  | .other _ => true
  | .arr xs => wfKeysList xs
  | .obj l => noDupKeys (l.map Prod.fst) && wfKeysEntries l

def wfKeysList : List JVal → Bool
  | [] => true
  | x :: xs => wfKeys x && wfKeysList xs

def wfKeysEntries : List (String × JVal) → Bool
  | [] => true
  | (_, v) :: rest => wfKeys v && wfKeysEntries rest

end

mutual

/-- Key-permutation at every nesting level: `w` is obtained from `v` by
reordering the entries of mappings, anywhere in the tree.  The `obj` rule
permutes the entries of the mapping itself and then relates the entry values
recursively. -/
inductive KeyPerm : JVal → JVal → Prop where
  | null : KeyPerm .null .null
  | bool : ∀ (b : Bool), KeyPerm (.bool b) (.bool b)
  | num : ∀ (n : Int), KeyPerm (.num n) (.num n)
  | str : ∀ (s : String), KeyPerm (.str s) (.str s)
  | other : ∀ (s : String), KeyPerm (.other s) (.other s)
  | arr : ∀ {xs ys : List JVal}, ValsRel xs ys → KeyPerm (.arr xs) (.arr ys)
  | obj : ∀ {l1 l2 mid : List (String × JVal)},
      l1.Perm mid → EntriesRel mid l2 → KeyPerm (.obj l1) (.obj l2)

inductive ValsRel : List JVal → List JVal → Prop where
  | nil : ValsRel [] []
  | cons : ∀ {x y : JVal} {xs ys : List JVal},
      KeyPerm x y → ValsRel xs ys → ValsRel (x :: xs) (y :: ys)

inductive EntriesRel : List (String × JVal) → List (String × JVal) → Prop where
  | nil : EntriesRel [] []
  | cons : ∀ (k : String) {v w : JVal} {l l' : List (String × JVal)},
      KeyPerm v w → EntriesRel l l' → EntriesRel ((k, v) :: l) ((k, w) :: l')

end

theorem noDupKeys_nodup : ∀ {ks : List String}, noDupKeys ks = true → ks.Nodup
  | [], _ => List.nodup_nil
  | k :: rest, h => by
    rw [noDupKeys, Bool.and_eq_true, Bool.not_eq_true'] at h
    refine List.nodup_cons.mpr ⟨fun hm => ?_, noDupKeys_nodup h.2⟩
    rw [← List.elem_iff] at hm
    exact absurd hm (by simp [List.contains] at h ⊢; exact h.1)

theorem pairwise_fst_ne {β : Type} : ∀ {l : List (String × β)},
    (l.map Prod.fst).Nodup → l.Pairwise (fun a b => a.1 ≠ b.1)
  | [], _ => List.Pairwise.nil
  | kv :: rest, h => by
    rw [List.map_cons, List.nodup_cons] at h
    refine List.Pairwise.cons (fun b hb heq => ?_) (pairwise_fst_ne h.2)
    exact h.1 (heq ▸ List.mem_map_of_mem Prod.fst hb)

/-- Sorting by key is insensitive to the input order when the keys are
distinct: any two permutations of the same (key, value) pairs sort to the
same list. -/
theorem insertionSort_key_perm_eq {β : Type} {l1 l2 : List (String × β)}
    (h : l1.Perm l2) (hn : (l1.map Prod.fst).Nodup) :
    l1.insertionSort (fun a b => a.1 ≤ b.1) = l2.insertionSort (fun a b => a.1 ≤ b.1) := by
  letI : IsTotal (String × β) (fun a b => a.1 ≤ b.1) := ⟨fun a b => le_total a.1 b.1⟩
  letI : IsTrans (String × β) (fun a b => a.1 ≤ b.1) := ⟨fun _ _ _ h1 h2 => le_trans h1 h2⟩
  letI : IsAntisymm (String × β) (fun a b => a.1 < b.1) :=
    ⟨fun _ _ h1 h2 => absurd h2 (lt_asymm h1)⟩
  have hp : (l1.insertionSort (fun a b => a.1 ≤ b.1)).Perm
      (l2.insertionSort (fun a b => a.1 ≤ b.1)) :=
    (List.perm_insertionSort _ l1).trans (h.trans (List.perm_insertionSort _ l2).symm)
  have strict : ∀ m : List (String × β), m.Perm l1 →
      List.Sorted (fun a b : String × β => a.1 ≤ b.1) m →
      List.Sorted (fun a b : String × β => a.1 < b.1) m := by
    intro m hm hs
    have hnm : (m.map Prod.fst).Nodup := ((hm.map Prod.fst).nodup_iff).mpr hn
    exact (hs.and (pairwise_fst_ne hnm)).imp (fun hab => lt_of_le_of_ne hab.1 hab.2)
  exact List.eq_of_perm_of_sorted hp
    (strict _ (List.perm_insertionSort _ l1) (List.sorted_insertionSort _ l1))
    (strict _ ((List.perm_insertionSort _ l2).trans h.symm) (List.sorted_insertionSort _ l2))

/-- A function that preserves keys commutes with the key-based ordered
insert. -/
theorem orderedInsert_key_map {β γ : Type} (f : String × β → String × γ)
    (hf : ∀ x, (f x).1 = x.1) (a : String × β) :
    ∀ l : List (String × β),
      (l.map f).orderedInsert (fun x y => x.1 ≤ y.1) (f a) =
        (l.orderedInsert (fun x y => x.1 ≤ y.1) a).map f
  | [] => rfl
  | b :: l => by
    simp only [List.map_cons, List.orderedInsert, hf a, hf b]
    by_cases h : a.1 ≤ b.1
    · simp [h]
    · simp only [h, if_false, List.map_cons]
      rw [orderedInsert_key_map f hf a l]

/-- A function that preserves keys commutes with the key-based insertion
sort. -/
theorem insertionSort_key_map {β γ : Type} (f : String × β → String × γ)
    (hf : ∀ x, (f x).1 = x.1) :
    ∀ l : List (String × β),
      (l.map f).insertionSort (fun x y => x.1 ≤ y.1) =
        (l.insertionSort (fun x y => x.1 ≤ y.1)).map f
  | [] => rfl
  | a :: l => by
    simp only [List.map_cons, List.insertionSort, insertionSort_key_map f hf l]
    exact orderedInsert_key_map f hf a _

theorem dumpsEntries_eq_map : ∀ l : List (String × JVal),
    dumpsEntries l = l.map (fun kv => (kv.1, dumps kv.2))
  | [] => rfl
  | (k, v) :: rest => by rw [dumpsEntries, dumpsEntries_eq_map rest]; rfl

/-- The serializer of this development agrees with the source's order of
operations on mappings: sort the entries by key, then serialize each entry in
sorted order. -/
theorem dumps_obj_sorted (l : List (String × JVal)) :
    dumps (.obj l) = "\x7b" ++ String.intercalate ", "
      ((sortEntries l).map (fun kv => dumpString kv.1 ++ ": " ++ dumps kv.2)) ++ "\x7d" := by
  have h1 : sortPairs (dumpsEntries l) =
      (sortEntries l).map (fun kv => (kv.1, dumps kv.2)) := by
    rw [dumpsEntries_eq_map, sortPairs, sortEntries,
      insertionSort_key_map (fun kv => (kv.1, dumps kv.2)) (fun _ => rfl) l]
  rw [dumps, h1, List.map_map]
  rfl

theorem wfKeysEntries_iff : ∀ {l : List (String × JVal)},
    wfKeysEntries l = true ↔ ∀ kv ∈ l, wfKeys kv.2 = true
  | [] => by simp [wfKeysEntries]
  | (k, v) :: rest => by
    rw [wfKeysEntries, Bool.and_eq_true, wfKeysEntries_iff]
    simp

mutual

theorem keyPerm_dumps : ∀ {v w : JVal}, KeyPerm v w → wfKeys v = true → dumps v = dumps w
  | _, _, .null, _ => rfl
  | _, _, .bool _, _ => rfl
  | _, _, .num _, _ => rfl
  | _, _, .str _, _ => rfl
  | _, _, .other _, _ => rfl
  | _, _, .arr hvs, hw => by
    rw [wfKeys] at hw
    rw [dumps, dumps, valsRel_dumps hvs hw]
  | _, _, @KeyPerm.obj l1 l2 mid hperm hrel, hw => by
    rw [wfKeys, Bool.and_eq_true] at hw
    have hwfMid : wfKeysEntries mid = true :=
      wfKeysEntries_iff.mpr (fun kv hkv =>
        wfKeysEntries_iff.mp hw.2 kv (hperm.mem_iff.mpr hkv))
    have hmid := entriesRel_dumps hrel hwfMid
    have hpermD : (dumpsEntries l1).Perm (dumpsEntries mid) := by
      rw [dumpsEntries_eq_map, dumpsEntries_eq_map]
      exact hperm.map (fun kv => (kv.1, dumps kv.2))
    have hkeys : ((dumpsEntries l1).map Prod.fst).Nodup := by
      rw [dumpsEntries_eq_map, List.map_map]
      exact noDupKeys_nodup hw.1
    rw [dumps, dumps, sortPairs, sortPairs, insertionSort_key_perm_eq hpermD hkeys, hmid]

theorem valsRel_dumps : ∀ {xs ys : List JVal}, ValsRel xs ys → wfKeysList xs = true →
    dumpsList xs = dumpsList ys
  | _, _, .nil, _ => rfl
  | _, _, .cons hxy hrest, hw => by
    rw [wfKeysList, Bool.and_eq_true] at hw
    rw [dumpsList, dumpsList, keyPerm_dumps hxy hw.1, valsRel_dumps hrest hw.2]

theorem entriesRel_dumps : ∀ {l l' : List (String × JVal)}, EntriesRel l l' →
    wfKeysEntries l = true → dumpsEntries l = dumpsEntries l'
  | _, _, .nil, _ => rfl
  | _, _, .cons _ hvw hrest, hw => by
    rw [wfKeysEntries, Bool.and_eq_true] at hw
    rw [dumpsEntries, dumpsEntries, keyPerm_dumps hvw hw.1, entriesRel_dumps hrest hw.2]

end

/-! ### Helper lemmas about the store operations -/

theorem lookupStore_storeSet_self : ∀ (store : Store) (k : String) (es newEs : List Entry),
    lookupStore store k = some es → lookupStore (storeSet store k newEs) k = some newEs
  | [], _, _, _, h => by simp [lookupStore] at h
  | (k0, es0) :: rest, k, es, newEs, h => by
    by_cases hk : k0 = k
    · simp [lookupStore, storeSet, hk]
    · simp only [lookupStore, storeSet, hk, if_false] at h ⊢
      exact lookupStore_storeSet_self rest k es newEs h

theorem lookupStore_storeSet_other : ∀ (store : Store) (k k' : String) (es : List Entry),
    k' ≠ k → lookupStore (storeSet store k es) k' = lookupStore store k'
  | [], _, _, _, _ => rfl
  | (k0, es0) :: rest, k, k', es, hne => by
    by_cases hk : k0 = k
    · subst hk
      have hne' : ¬ (k0 = k') := fun h => hne h.symm
      simp [storeSet, lookupStore, hne']
    · simp only [storeSet, if_neg hk, lookupStore]
      by_cases hk' : k0 = k'
      · simp [hk']
      · simp only [hk', if_false]
        exact lookupStore_storeSet_other rest k k' es hne

theorem check_singleton (store : Store) (item : JVal) (c : String) :
    check store item [c] =
      (match lookupStore store c with
       | none => false
       | some es => es.any (fun e => e.id == getItemId item)) := by
  simp [check]

/-- Extensional description of `check`: true exactly when one of the listed
categories is present and holds an entry with the item's id. -/
theorem check_eq_true_iff (store : Store) (item : JVal) (keys : List String) :
    check store item keys = true ↔
      ∃ key ∈ keys, ∃ es, lookupStore store key = some es ∧
        ∃ e ∈ es, e.id = getItemId item := by
  simp only [check, List.any_eq_true]
  constructor
  · rintro ⟨key, hk, hf⟩
    refine ⟨key, hk, ?_⟩
    cases hles : lookupStore store key with
    | none => rw [hles] at hf; cases hf
    | some es =>
      rw [hles, List.any_eq_true] at hf
      obtain ⟨e, he, hei⟩ := hf
      exact ⟨es, rfl, e, he, by rwa [beq_iff_eq] at hei⟩
  · rintro ⟨key, hk, es, hles, e, he, hei⟩
    refine ⟨key, hk, ?_⟩
    rw [hles, List.any_eq_true]
    exact ⟨e, he, by rw [beq_iff_eq]; exact hei⟩

theorem genLoop_yield_filter : ∀ (dones : List Entry) (data : List JVal),
    (genLoop dones data).1 =
      data.filter (fun item => truthy item && !(dones.any (fun e => e.id == getItemId item)))
  | _, [] => rfl
  | dones, item :: rest => by
    rw [genLoop, List.filter_cons]
    by_cases ht : truthy item
    · by_cases hd : dones.any (fun e => e.id == getItemId item)
      · simp [ht, hd, genLoop_yield_filter dones rest]
      · simp [ht, hd, genLoop_yield_filter dones rest]
    · simp [ht, genLoop_yield_filter dones rest]

/-! ### Sample values used to instantiate the theorems -/

/-- The item of the spec's scenario. -/
def sampleItem : JVal := .obj [("a", .num 1)]

/-- The `dones` entry recorded for `sampleItem` at time `"t0"` with no
message. -/
def sampleEntry : Entry := formatOutputEntry "t0" sampleItem none

/-- The source list of the spec's scenario. -/
def c4Source : List JVal := [sampleItem, .obj [], sampleItem]

/-- A store holding the id of the empty mapping under `"endpoint"`. -/
def emptyDictStore : Store := [("endpoint", [⟨"t0", getItemId (.obj []), .obj [], none⟩])]

/-! ### The claims -/

/-- Claim C1: over any input list and any `dones` state of the store, the
generator yields exactly the elements that are truthy and whose content id is
not recorded in `dones`, in source order; in particular an element whose id
is in `dones` is never yielded, on this and on every re-invocation. -/
theorem c1_generator_yields_not_done (dones : List Entry) (data : List JVal) :
    (genLoop dones data).1 =
      data.filter (fun item => truthy item && !(dones.any (fun e => e.id == getItemId item))) ∧
    ∀ X : JVal, dones.any (fun e => e.id == getItemId X) = true →
      X ∉ (genLoop dones data).1 := by
  refine ⟨genLoop_yield_filter dones data, fun X hX hmem => ?_⟩
  rw [genLoop_yield_filter dones data] at hmem
  have h := (List.mem_filter.mp hmem).2
  rw [hX] at h
  simp at h

/-- Witness for C1 at a concrete source and store: the store knows
`sampleItem`'s id under `dones`, and the generator run over a list containing
`sampleItem` does not yield it. -/
theorem c1_witness :
    [sampleEntry].any (fun e => e.id == getItemId sampleItem) = true ∧
    sampleItem ∉ (genLoop [sampleEntry] [sampleItem, .obj [], sampleItem]).1 :=
  ⟨rfl, (c1_generator_yields_not_done [sampleEntry] [sampleItem, .obj [], sampleItem]).2
    sampleItem rfl⟩

/-- Claim C2: canonical serialization, and hence the content id, is invariant
under permutation of mapping keys at every nesting level, for values whose
mappings have distinct keys (every Python dict does). -/
theorem c2_id_key_order_invariant (v w : JVal) (hperm : KeyPerm v w)
    (hwf : wfKeys v = true) :
    dumps v = dumps w ∧ getItemId v = getItemId w :=
  ⟨keyPerm_dumps hperm hwf, by rw [getItemId, getItemId, keyPerm_dumps hperm hwf]⟩

/-- Witness for C2 on the two-key mapping with its keys swapped. -/
theorem c2_witness :
    wfKeys (.obj [("b", .num 1), ("a", .num 2)]) = true ∧
    dumps (.obj [("b", .num 1), ("a", .num 2)]) = dumps (.obj [("a", .num 2), ("b", .num 1)]) ∧
    getItemId (.obj [("b", .num 1), ("a", .num 2)]) =
      getItemId (.obj [("a", .num 2), ("b", .num 1)]) :=
  have hkp : KeyPerm (.obj [("b", .num 1), ("a", .num 2)]) (.obj [("a", .num 2), ("b", .num 1)]) :=
    KeyPerm.obj (List.Perm.swap (("a", JVal.num 2)) (("b", JVal.num 1)) [])
      (EntriesRel.cons "a" (KeyPerm.num 2) (EntriesRel.cons "b" (KeyPerm.num 1) EntriesRel.nil))
  ⟨rfl, (c2_id_key_order_invariant _ _ hkp rfl).1, (c2_id_key_order_invariant _ _ hkp rfl).2⟩

/-- Counterexample to claim C3 as stated: a backing file that parses to the
empty mapping (valid JSON, no `dones` key) is loaded as-is, so the in-memory
store does not contain the `dones` category after construction. -/
theorem c3_counterexample :
    hasKey (loadOutputData (.parsed (.obj []))) "dones" = false := rfl

/-- Claim C3 amended: after construction the store contains the `dones` key
iff the backing file was absent, malformed, or parsed to a document that
itself contains `dones`; the absent/malformed fallback is the fresh store
with an empty `dones` list. -/
theorem c3_dones_key_after_load (fs : FileState) :
    (hasKey (loadOutputData fs) "dones" = true ↔
      (fs = FileState.absent ∨ fs = FileState.malformed ∨
        ∃ v, fs = FileState.parsed v ∧ hasKey v "dones" = true)) ∧
    loadOutputData .absent = .obj [("dones", .arr [])] ∧
    loadOutputData .malformed = .obj [("dones", .arr [])] := by
  refine ⟨?_, rfl, rfl⟩
  cases fs with
  | absent => simp [loadOutputData, hasKey]
  | malformed => simp [loadOutputData, hasKey]
  | parsed v =>
    constructor
    · intro h
      exact Or.inr (Or.inr ⟨v, rfl, h⟩)
    · rintro (h | h | ⟨w, hw, h⟩) <;> first
        | cases h
        | (cases hw; exact h)

set_option maxRecDepth 8000 in
/-- Counterexample to claim C4 as stated: over the scenario source with an
initially empty store, the run without mid-stream marking yields the item
twice with processed = 2, and the run in which the caller marks each yielded
item done has skipped = 2; in neither reading is the first-run summary
processed = 1 and skipped = 1 with a single yield. -/
theorem c4_counterexample :
    ¬ ((genLoop [] c4Source).1 = [sampleItem] ∧ (genLoop [] c4Source).2.1 = 1 ∧
        (genLoop [] c4Source).2.2 = 1) ∧
    ¬ (processLoop "t0" [("dones", [])] c4Source =
        some ([("dones", [sampleEntry])], [sampleItem], 1, 1)) := by
  constructor
  · intro h
    have h2 : (genLoop [] c4Source).2.1 = 2 := rfl
    rw [h.2.1] at h2
    cases h2
  · intro h
    have h2 : (processLoop "t0" [("dones", [])] c4Source).map (fun r => r.2.2.2) = some 2 := rfl
    rw [h] at h2
    simp at h2

/-- Claim C4 amended: with the caller marking each yielded item done as it is
received (the program's own driving loop), the first run over
`[sampleItem, empty, sampleItem]` with an empty store yields `sampleItem`
exactly once with processed = 1 and skipped = 2 (the empty element and the
second copy, already marked done mid-run); the second run yields nothing with
processed = 0 and skipped = 3, and the generator's summary over the resulting
store reports total = 3, processed = 0, skipped = 3. -/
theorem c4_scenario_counts :
    processLoop "t0" [("dones", [])] c4Source =
      some ([("dones", [sampleEntry])], [sampleItem], 1, 2) ∧
    processLoop "t1" [("dones", [sampleEntry])] c4Source =
      some ([("dones", [sampleEntry])], [], 0, 3) ∧
    generator (.parsed (.arr c4Source)) [sampleEntry] = ⟨[], 3, 0, 3, true, false⟩ :=
  ⟨rfl, rfl, rfl⟩

/-- Claim C5: `check` returns true iff some listed category that is present
in the store holds an entry with the item's content id; a category missing
from the store is skipped (with a warning only) and the scan continues, so a
call naming only missing categories returns false and raises nothing. -/
theorem c5_check_membership (store : Store) (item : JVal) (keys : List String) :
    (check store item keys = true ↔
      ∃ key ∈ keys, ∃ es, lookupStore store key = some es ∧
        ∃ e ∈ es, e.id = getItemId item) ∧
    ((∀ key ∈ keys, lookupStore store key = none) → check store item keys = false) := by
  refine ⟨check_eq_true_iff store item keys, fun hall => ?_⟩
  rw [← Bool.not_eq_true, check_eq_true_iff store item keys]
  rintro ⟨key, hk, es, hles, _⟩
  rw [hall key hk] at hles
  cases hles

/-- Witness for C5, the spec's scenario: checking a store that has no `"foo"`
category returns false without raising. -/
theorem c5_witness :
    (∀ key ∈ ["foo"], lookupStore [("dones", [])] key = none) ∧
    check [("dones", [])] (.obj [("x", .num 1)]) ["foo"] = false :=
  have hall : ∀ key ∈ ["foo"], lookupStore ([("dones", [])] : Store) key = none := by
    intro key hk
    rw [List.mem_singleton.mp hk]
    rfl
  ⟨hall, (c5_check_membership [("dones", [])] (.obj [("x", .num 1)]) ["foo"]).2 hall⟩

/-- Claim C6: for a truthy item, `done` appends exactly one entry to the
`dones` category, leaves every other category untouched, and therefore does
not change the result of `check` on any other category. -/
theorem c6_done_frame (store store' : Store) (item : JVal) (msg : Option String)
    (now : String) (saved : Bool) (ht : truthy item = true)
    (hdone : done store item msg now = some (store', saved)) :
    lookupStore store' "dones" =
      (lookupStore store "dones").map (fun es => es ++ [formatOutputEntry now item msg]) ∧
    (∀ k, k ≠ "dones" → lookupStore store' k = lookupStore store k) ∧
    (∀ c, c ≠ "dones" → check store' item [c] = check store item [c]) := by
  rw [done, ht] at hdone
  simp only [Bool.true_eq_false, if_false] at hdone
  cases hles : lookupStore store "dones" with
  | none => rw [hles] at hdone; cases hdone
  | some es =>
    rw [hles] at hdone
    simp only [Option.some.injEq, Prod.mk.injEq] at hdone
    obtain ⟨hst, -⟩ := hdone
    subst hst
    refine ⟨?_, fun k hk => lookupStore_storeSet_other store "dones" k _ hk, fun c hc => ?_⟩
    · rw [lookupStore_storeSet_self store "dones" es _ hles]
      rfl
    · rw [check_singleton, check_singleton,
        lookupStore_storeSet_other store "dones" c _ hc]

/-- Witness for C6: marking `sampleItem` done in the fresh store leaves the
(nonexistent) `"custom"` category and its `check` result unchanged. -/
theorem c6_witness :
    truthy sampleItem = true ∧
    done [("dones", [])] sampleItem none "t0" = some ([("dones", [sampleEntry])], true) ∧
    lookupStore [("dones", [sampleEntry])] "custom" = lookupStore [("dones", [])] "custom" ∧
    check [("dones", [sampleEntry])] sampleItem ["custom"] =
      check [("dones", [])] sampleItem ["custom"] :=
  ⟨rfl, rfl,
   (c6_done_frame [("dones", [])] [("dones", [sampleEntry])] sampleItem none "t0" true
      rfl rfl).2.1 "custom" (by decide),
   (c6_done_frame [("dones", [])] [("dones", [sampleEntry])] sampleItem none "t0" true
      rfl rfl).2.2 "custom" (by decide)⟩

/-- Claim C7: a falsy item passed to `endpoint` or `done` is a warned no-op:
no exception, the store is returned unchanged, and the backing file is not
rewritten (the save flag is false). -/
theorem c7_falsy_noop (store : Store) (item : JVal) (keys : List String)
    (msg : Option String) (now : String) (h : truthy item = false) :
    endpoint store item keys msg now = (store, false) ∧
    done store item msg now = some (store, false) := by
  constructor
  · rw [endpoint, h]
    simp
  · rw [done, h]
    simp

/-- Witness for C7 on the empty mapping, a falsy item. -/
theorem c7_witness :
    truthy (.obj []) = false ∧
    endpoint [("dones", [])] (.obj []) ["endpoint"] none "t0" = ([("dones", [])], false) ∧
    done [("dones", [])] (.obj []) none "t0" = some ([("dones", [])], false) :=
  ⟨rfl, (c7_falsy_noop [("dones", [])] (.obj []) ["endpoint"] none "t0" rfl).1,
        (c7_falsy_noop [("dones", [])] (.obj []) ["endpoint"] none "t0" rfl).2⟩

/-- Claim C8: a missing input file, an unparseable input file, or a parse
result that is not a list makes the generator log an error and produce the
empty sequence; the run is a total function of the input, so nothing
propagates to the iterating caller. -/
theorem c8_bad_input_yields_nothing (input : FileState) (dones : List Entry)
    (h : input = .absent ∨ input = .malformed ∨
      ∃ v, input = .parsed v ∧ isArrB v = false) :
    (generator input dones).yielded = [] ∧ (generator input dones).errorLogged = true := by
  rcases h with h | h | ⟨v, hv, hnl⟩
  · subst h; exact ⟨rfl, rfl⟩
  · subst h; exact ⟨rfl, rfl⟩
  · subst hv
    cases v with
    | arr xs => rw [isArrB] at hnl; cases hnl
    | null => exact ⟨rfl, rfl⟩
    | bool b => exact ⟨rfl, rfl⟩
    | num n => exact ⟨rfl, rfl⟩
    | str s => exact ⟨rfl, rfl⟩
    | other s => exact ⟨rfl, rfl⟩
    | obj l => exact ⟨rfl, rfl⟩

/-- Witness for C8 on an input file that parses to a number. -/
theorem c8_witness :
    isArrB (.num 0) = false ∧
    (generator (.parsed (.num 0)) []).yielded = [] ∧
    (generator (.parsed (.num 0)) []).errorLogged = true :=
  ⟨rfl,
   (c8_bad_input_yields_nothing (.parsed (.num 0)) [] (Or.inr (Or.inr ⟨.num 0, rfl, rfl⟩))).1,
   (c8_bad_input_yields_nothing (.parsed (.num 0)) [] (Or.inr (Or.inr ⟨.num 0, rfl, rfl⟩))).2⟩

theorem entry_roundtrip (e : Entry) : entryOfJVal (entryToJVal e) = some e := by
  cases e with
  | mk ts i it msg => cases msg <;> rfl

theorem entryList_roundtrip : ∀ es : List Entry,
    entryListOfJVals (es.map entryToJVal) = some es
  | [] => rfl
  | e :: es => by
    simp [entryListOfJVals, entry_roundtrip e, entryList_roundtrip es]

theorem storeEntries_roundtrip : ∀ s : Store,
    storeEntriesOfJVals (s.map (fun kv => (kv.1, .arr (kv.2.map entryToJVal)))) = some s
  | [] => rfl
  | (k, es) :: rest => by
    simp [storeEntriesOfJVals, entriesOfCategory, entryList_roundtrip es,
      storeEntries_roundtrip rest]

/-- Claim C9: saving any store and loading it back in a new instance
reproduces the identical logical structure: the same categories in the same
order, each with the same entries, ids, items, and messages. -/
theorem c9_save_load_roundtrip (store : Store) :
    storeOfJVal (loadOutputData (saveOutputData store)) = some store := by
  rw [saveOutputData, loadOutputData, storeToJVal, storeOfJVal]
  exact storeEntries_roundtrip store

/-- Claim C10: `check` applies no falsy-item rejection: on a falsy item it
computes the content id and scans the named categories exactly as for any
other item, so it can return true when an equal falsy value's id was stored
and returns false (without warning no-op semantics) otherwise. -/
theorem c10_check_no_falsy_guard (store : Store) (item : JVal) (keys : List String)
    (_hfalsy : truthy item = false) :
    check store item keys = true ↔
      ∃ key ∈ keys, ∃ es, lookupStore store key = some es ∧
        ∃ e ∈ es, e.id = getItemId item :=
  check_eq_true_iff store item keys

/-- Witness for C10: the empty mapping is falsy, yet `check` finds its id in
a store that recorded it. -/
theorem c10_witness :
    truthy (.obj []) = false ∧ check emptyDictStore (.obj []) ["endpoint"] = true :=
  ⟨rfl, (c10_check_no_falsy_guard emptyDictStore (.obj []) ["endpoint"] rfl).mpr
    ⟨"endpoint", List.mem_singleton.mpr rfl, _, rfl,
      ⟨"t0", getItemId (.obj []), .obj [], none⟩, List.mem_singleton.mpr rfl, rfl⟩⟩

end CyLog
